import Mathlib

/-!
Verification of the ADAS overlay post-processing in
`ultralytics-ver2/engine/results.py` (classes `Results`, `Boxes`, `Probs`).

The landmark resolver, VLA history, FCW pass, lane-corridor drawing,
center-line drawing and lane-departure decision of `Results.plot` are
embedded as pure functions over integer pixel coordinates; the external
per-box renderer `annotator.box_label` is abstracted by the list of
seven-slot candidate tuples it returns, one entry per detection in the
original detector order.  Python `int(x)` truncates toward zero, which is
`Int.tdiv` on exact values; the float constants `3.5`, `0.80`, `0.99` are
modelled with exact rational arithmetic.
-/

namespace ADAS

/-- A 4-coordinate pixel quadruple `(x1, y1, x2, y2)` as returned in each
landmark slot of `annotator.box_label`. -/
structure Quad where
  x1 : Int
  y1 : Int
  x2 : Int
  y2 : Int
deriving DecidableEq, Repr

/-- The absent marker `(9999, 9999, 9999, 9999)` used to initialise
`Final_*_pt` in `Results.plot` (results.py:262-268). -/
def sentinel : Quad := ⟨9999, 9999, 9999, 9999⟩

/-- The presence test used throughout `Results.plot`: a slot counts as
supplied exactly when its first coordinate differs from 9999
(`if VLA_pt[0]!=9999:` etc., results.py:282-296, 314-337). -/
def qpresent (q : Quad) : Bool := q.x1 != 9999

/-- The seven landmark slots returned by one `annotator.box_label` call:
vanish-line anchor, center-divider anchor, vanishing-point anchor, and the
four drivable-area anchors (near / mid / far / ultra-far). -/
structure Slots where
  vla : Quad
  dca : Quad
  vpa : Quad
  dua_d : Quad
  dua_m : Quad
  dua_u : Quad
  dua_ut : Quad
deriving DecidableEq, Repr

/-- All seven `Final_*_pt` variables start at the sentinel
(results.py:262-268). -/
def initSlots : Slots :=
  ⟨sentinel, sentinel, sentinel, sentinel, sentinel, sentinel, sentinel⟩

/-- The seven landmark kinds. -/
inductive LKind
  | vla
  | dca
  | vpa
  | dua_d
  | dua_m
  | dua_u
  | dua_ut
deriving DecidableEq, Repr

/-- Projection of a `Slots` record at a landmark kind. -/
def Slots.proj (k : LKind) (s : Slots) : Quad :=
  match k with
  | .vla => s.vla
  | .dca => s.dca
  | .vpa => s.vpa
  | .dua_d => s.dua_d
  | .dua_m => s.dua_m
  | .dua_u => s.dua_u
  | .dua_ut => s.dua_ut

/-- One conditional overwrite `if pt[0]!=9999: Final = pt`
(results.py:282-296). -/
def updQ (old cand : Quad) : Quad := if qpresent cand then cand else old

/-- The body of the resolver loop for one detection: every slot whose
candidate is present overwrites the accumulated `Final` value, and a
present VLA candidate also overwrites the process-wide history
(results.py:280-296). -/
def stepRes (st : Slots × Option Quad) (c : Slots) : Slots × Option Quad :=
  (⟨updQ st.1.vla c.vla, updQ st.1.dca c.dca, updQ st.1.vpa c.vpa,
    updQ st.1.dua_d c.dua_d, updQ st.1.dua_m c.dua_m,
    updQ st.1.dua_u c.dua_u, updQ st.1.dua_ut c.dua_ut⟩,
   if qpresent c.vla then some c.vla else st.2)

/-- The resolver pass `for d in reversed(pred_boxes): ...`
(results.py:274-296): `cands` lists the `box_label` outputs in original
detector order and `h0` is the incoming `HISTORY_VLA_pt`. -/
def resolve (cands : List Slots) (h0 : Option Quad) : Slots × Option Quad :=
  cands.reverse.foldl stepRes (initSlots, h0)

theorem resolve_nil (h0 : Option Quad) : resolve [] h0 = (initSlots, h0) := rfl

theorem resolve_cons (c : Slots) (cs : List Slots) (h0 : Option Quad) :
    resolve (c :: cs) h0 = stepRes (resolve cs h0) c := by
  simp [resolve, List.reverse_cons, List.foldl_append]

theorem proj_stepRes (k : LKind) (st : Slots × Option Quad) (c : Slots) :
    Slots.proj k (stepRes st c).1 = updQ (Slots.proj k st.1) (Slots.proj k c) := by
  cases k <;> rfl

theorem resolve_proj_find (k : LKind) (cands : List Slots)
    (h0 : Option Quad) :
    Slots.proj k (resolve cands h0).1
      = ((cands.map (Slots.proj k)).find? qpresent).getD sentinel := by
  induction cands with
  | nil => cases k <;> rfl
  | cons c cs ih =>
    rw [resolve_cons, proj_stepRes, List.map_cons]
    by_cases hq : qpresent (Slots.proj k c)
    · rw [List.find?_cons_of_pos _ hq]
      simp [updQ, hq]
    · rw [List.find?_cons_of_neg _ hq]
      simp only [updQ, hq, if_false]
      exact ih

/-- **C1.** For each of the seven landmark kinds independently, the value
resolved by the reversed-iteration pass equals the candidate of the
detection with the lowest original index whose slot for that kind is
present (first coordinate different from 9999); if no detection supplies
the kind, the resolved value is the absent sentinel. -/
theorem resolve_lowest_index_wins (k : LKind) (cands : List Slots)
    (h0 : Option Quad) :
    Slots.proj k (resolve cands h0).1
      = ((cands.map (Slots.proj k)).find? qpresent).getD sentinel :=
  resolve_proj_find k cands h0

theorem resolve_hist_some (cands : List Slots) (h0 : Option Quad) (q : Quad)
    (hf : (cands.map Slots.vla).find? qpresent = some q) :
    (resolve cands h0).2 = some q := by
  induction cands with
  | nil => simp at hf
  | cons c cs ih =>
    rw [resolve_cons]
    by_cases hq : qpresent c.vla
    · rw [List.map_cons, List.find?_cons_of_pos _ hq] at hf
      simp only [stepRes, hq, if_true]
      exact congrArg some (Option.some.inj hf)
    · rw [List.map_cons, List.find?_cons_of_neg _ hq] at hf
      simp only [stepRes, hq, if_false]
      exact ih hf

theorem resolve_hist_none (cands : List Slots) (h0 : Option Quad)
    (hf : (cands.map Slots.vla).find? qpresent = none) :
    (resolve cands h0).2 = h0 := by
  induction cands with
  | nil => rfl
  | cons c cs ih =>
    rw [List.map_cons, List.find?_cons] at hf
    rw [resolve_cons]
    by_cases hq : qpresent c.vla
    · simp [hq] at hf
    · simp only [stepRes, hq, if_false]
      simp only [hq, cond_false] at hf
      exact ih hf

/-- One frame's worth of inputs to the modelled part of `Results.plot`:
the `box_label` outputs per detection (original order), the `boxes`
flag (`show_boxes`, an empty list also covers an absent `BoxSet`), and the
frame height and width of the drawable buffer. -/
structure PlotIn where
  cands : List Slots
  showBoxes : Bool
  imH : Int
  imW : Int

/-- The resolver pass as run by `plot`: it executes only under
`if pred_boxes and show_boxes:` (results.py:272); otherwise all
`Final_*_pt` keep the sentinel and the history is untouched. -/
def plotResolve (pin : PlotIn) (h0 : Option Quad) : Slots × Option Quad :=
  if pin.showBoxes then resolve pin.cands h0 else (initSlots, h0)

/-- `im` is non-`None` exactly when the detection loop ran at least once,
i.e. some `box_label` call returned the drawable buffer
(results.py:269, 280). -/
def imSome (pin : PlotIn) : Bool := pin.showBoxes && !pin.cands.isEmpty

/-- The FCW pass (results.py:355-361): for each detection, in reversed
order, `box_FCWS_label` is invoked with reference row `HISTORY_VLA_pt[1]`
only when `HISTORY_VLA_pt is not None`; the returned list records the
reference row of every invocation made.  `h1` is the history value after
the current frame's resolver pass. -/
def fcwRows (pin : PlotIn) (h1 : Option Quad) : List Int :=
  if pin.showBoxes then
    pin.cands.reverse.foldl
      (fun acc _ => match h1 with
        | some q => acc ++ [q.y1]
        | none => acc) []
  else []

theorem fcwRows_of_none (pin : PlotIn) :
    fcwRows pin none = [] := by
  unfold fcwRows
  by_cases hs : pin.showBoxes
  · simp only [hs, if_true]
    induction pin.cands.reverse with
    | nil => rfl
    | cons c cs ih => simp only [List.foldl_cons]; exact ih
  · simp [hs]

theorem foldl_append_const (y : Int) (l : List Slots) (acc : List Int) :
    l.foldl (fun a (_ : Slots) => a ++ [y]) acc
      = acc ++ List.replicate l.length y := by
  induction l generalizing acc with
  | nil => simp
  | cons c cs ih =>
    simp only [List.foldl_cons, ih, List.length_cons, List.replicate_succ,
      List.append_assoc, List.singleton_append]

theorem fcwRows_of_some (pin : PlotIn) (q : Quad) (hs : pin.showBoxes = true) :
    fcwRows pin (some q) = List.replicate pin.cands.length q.y1 := by
  unfold fcwRows
  rw [hs, if_pos rfl]
  have := foldl_append_const q.y1 pin.cands.reverse []
  simpa [List.length_reverse] using this

/-- **C2.** (a) If some detection supplies a present VLA, the history
after the pass equals the frame's resolved VLA; (b) if none does, the
history is unchanged; (c) across three frames where frame 1 resolves a
VLA, frame 2 resolves none and frame 3 resolves one again, every FCW
invocation of frame 2 uses frame 1's resolved VLA row and every FCW
invocation of frame 3 uses frame 3's resolved VLA row. -/
theorem vla_history_update (cands : List Slots) (h0 : Option Quad)
    (f1 f2 f3 : PlotIn) (g0 : Option Quad) :
    ((∃ c ∈ cands, qpresent c.vla) →
        (resolve cands h0).2 = some (resolve cands h0).1.vla)
    ∧ ((∀ c ∈ cands, qpresent c.vla = false) → (resolve cands h0).2 = h0)
    ∧ (f1.showBoxes = true → f2.showBoxes = true → f3.showBoxes = true →
        (∃ c ∈ f1.cands, qpresent c.vla) →
        (∀ c ∈ f2.cands, qpresent c.vla = false) →
        (∃ c ∈ f3.cands, qpresent c.vla) →
        f2.cands ≠ [] → f3.cands ≠ [] →
        fcwRows f2 (plotResolve f2 (plotResolve f1 g0).2).2
            = List.replicate f2.cands.length (plotResolve f1 g0).1.vla.y1
          ∧ fcwRows f2 (plotResolve f2 (plotResolve f1 g0).2).2 ≠ []
          ∧ fcwRows f3
                (plotResolve f3 (plotResolve f2 (plotResolve f1 g0).2).2).2
              = List.replicate f3.cands.length
                  (plotResolve f3 (plotResolve f2 (plotResolve f1 g0).2).2).1.vla.y1
          ∧ fcwRows f3
                (plotResolve f3 (plotResolve f2 (plotResolve f1 g0).2).2).2 ≠ []) := by
  have key : ∀ (cs : List Slots) (h : Option Quad),
      ((∃ c ∈ cs, qpresent c.vla) → (resolve cs h).2 = some (resolve cs h).1.vla)
      ∧ ((∀ c ∈ cs, qpresent c.vla = false) → (resolve cs h).2 = h) := by
    intro cs h
    constructor
    · intro hex
      rcases hfind : (cs.map Slots.vla).find? qpresent with _ | q
      · rcases hex with ⟨c, hc, hq⟩
        have : c.vla ∈ cs.map Slots.vla := List.mem_map_of_mem _ hc
        have := List.find?_eq_none.mp hfind _ this
        exact absurd hq (by simpa using this)
      · have h2 := resolve_hist_some cs h q hfind
        have hproj : Slots.proj LKind.vla = Slots.vla := funext fun _ => rfl
        have h1 : (resolve cs h).1.vla = q := by
          have hw := resolve_proj_find .vla cs h
          rw [hproj] at hw
          rw [hw, hfind, Option.getD_some]
        rw [h2, h1]
    · intro hall
      refine resolve_hist_none cs h (List.find?_eq_none.mpr ?_)
      intro x hx
      rcases List.mem_map.mp hx with ⟨c, hc, rfl⟩
      simpa using hall c hc
  refine ⟨(key cands h0).1, (key cands h0).2, ?_⟩
  intro hs1 hs2 hs3 hex1 hnone2 hex3 hne2 hne3
  have hr1 : (plotResolve f1 g0).2 = some (plotResolve f1 g0).1.vla := by
    simp only [plotResolve, hs1, if_true]
    exact (key f1.cands g0).1 hex1
  have hr2 : (plotResolve f2 (plotResolve f1 g0).2).2 = (plotResolve f1 g0).2 := by
    simp only [plotResolve, hs2, if_true]
    exact (key f2.cands _).2 hnone2
  have hr3 : (plotResolve f3 (plotResolve f2 (plotResolve f1 g0).2).2).2
      = some (plotResolve f3 (plotResolve f2 (plotResolve f1 g0).2).2).1.vla := by
    simp only [plotResolve, hs3, if_true]
    exact (key f3.cands _).1 hex3
  have hrow2 : fcwRows f2 (plotResolve f2 (plotResolve f1 g0).2).2
      = List.replicate f2.cands.length (plotResolve f1 g0).1.vla.y1 := by
    rw [hr2, hr1]
    exact fcwRows_of_some f2 _ hs2
  have hrow3 : fcwRows f3 (plotResolve f3 (plotResolve f2 (plotResolve f1 g0).2).2).2
      = List.replicate f3.cands.length
          (plotResolve f3 (plotResolve f2 (plotResolve f1 g0).2).2).1.vla.y1 := by
    rw [hr3]
    exact fcwRows_of_some f3 _ hs3
  refine ⟨hrow2, ?_, hrow3, ?_⟩
  · rw [hrow2]
    simpa [List.replicate_eq_nil_iff, List.length_eq_zero] using hne2
  · rw [hrow3]
    simpa [List.replicate_eq_nil_iff, List.length_eq_zero] using hne3

/-- **C4.** The FCW pass skips every detection when the (post-resolver)
VLA history is `None`, and with a present history it invokes
`box_FCWS_label` once per detection, always passing the history's second
coordinate as the reference row. -/
theorem fcw_skip_without_history (pin : PlotIn) (h1 : Option Quad) (q : Quad) :
    (h1 = none → fcwRows pin h1 = [])
    ∧ (h1 = some q → pin.showBoxes = true →
        (fcwRows pin h1).length = pin.cands.length
          ∧ ∀ y ∈ fcwRows pin h1, y = q.y1) := by
  constructor
  · intro h
    rw [h]
    exact fcwRows_of_none pin
  · intro h hs
    rw [h, fcwRows_of_some pin q hs]
    constructor
    · exact List.length_replicate _ _
    · intro y hy
      exact List.eq_of_mem_replicate hy

/-- The lane key points derived from the resolved slots
(results.py:299-334): each `l_p*`/`r_p*` pair is set together when the
corresponding `Final_*_pt[0] != 9999`, else left `None`. -/
structure LanePts where
  l1 : Option (Int × Int)
  r1 : Option (Int × Int)
  l2 : Option (Int × Int)
  r2 : Option (Int × Int)
  l3 : Option (Int × Int)
  r3 : Option (Int × Int)
  l4 : Option (Int × Int)
  r4 : Option (Int × Int)
  l5 : Option (Int × Int)
  r5 : Option (Int × Int)
  lvl : Option (Int × Int)
  rvl : Option (Int × Int)
deriving DecidableEq, Repr

def lanePts (sl : Slots) : LanePts where
  l1 := if qpresent sl.dca then some (sl.dca.x1, sl.dca.y1) else none
  r1 := if qpresent sl.dca then some (sl.dca.x2, sl.dca.y2) else none
  l2 := if qpresent sl.dua_d then some (sl.dua_d.x1, sl.dua_d.y1) else none
  r2 := if qpresent sl.dua_d then some (sl.dua_d.x2, sl.dua_d.y2) else none
  l3 := if qpresent sl.dua_m then some (sl.dua_m.x1, sl.dua_m.y1) else none
  r3 := if qpresent sl.dua_m then some (sl.dua_m.x2, sl.dua_m.y2) else none
  l4 := if qpresent sl.dua_u then some (sl.dua_u.x1, sl.dua_u.y1) else none
  r4 := if qpresent sl.dua_u then some (sl.dua_u.x2, sl.dua_u.y2) else none
  l5 := if qpresent sl.dua_ut then some (sl.dua_ut.x1, sl.dua_ut.y1) else none
  r5 := if qpresent sl.dua_ut then some (sl.dua_ut.x2, sl.dua_ut.y2) else none
  lvl := if qpresent sl.vla then some (sl.vla.x1, sl.vla.y1) else none
  rvl := if qpresent sl.vla then some (sl.vla.x2, sl.vla.y2) else none

/-- Middle-line waypoint of a landmark rectangle:
`(int((pt[0]+pt[2])/2.0), pt[3])` (results.py:386 etc.); Python's `int`
truncates toward zero, i.e. `Int.tdiv`. -/
def midPt (q : Quad) : Int × Int := ((q.x1 + q.x2).tdiv 2, q.y2)

/-- The corridor segments drawn by the polyline block
(results.py:371-450), recorded with their endpoints; `none` means the
`cv2.line` call for that segment was skipped.  Each left/middle segment is
guarded by the presence of its two `l_p*` endpoints, each right segment by
its two `r_p*` endpoints, and the vanish line by `l_vl`/`r_vl`. -/
structure Segs where
  vanish : Option ((Int × Int) × (Int × Int))
  left12 : Option ((Int × Int) × (Int × Int))
  mid12 : Option ((Int × Int) × (Int × Int))
  left23 : Option ((Int × Int) × (Int × Int))
  mid23 : Option ((Int × Int) × (Int × Int))
  left34 : Option ((Int × Int) × (Int × Int))
  mid34 : Option ((Int × Int) × (Int × Int))
  left45 : Option ((Int × Int) × (Int × Int))
  mid45 : Option ((Int × Int) × (Int × Int))
  right12 : Option ((Int × Int) × (Int × Int))
  right23 : Option ((Int × Int) × (Int × Int))
  right34 : Option ((Int × Int) × (Int × Int))
  right45 : Option ((Int × Int) × (Int × Int))
deriving DecidableEq, Repr

def segsOf (sl : Slots) : Segs :=
  let lp := lanePts sl
  { vanish := match lp.lvl, lp.rvl with
      | some a, some b => some (a, b)
      | _, _ => none
    left12 := match lp.l1, lp.l2 with
      | some a, some b => some (a, b)
      | _, _ => none
    mid12 := match lp.l1, lp.l2 with
      | some _, some _ => some (midPt sl.dca, midPt sl.dua_d)
      | _, _ => none
    left23 := match lp.l2, lp.l3 with
      | some a, some b => some (a, b)
      | _, _ => none
    mid23 := match lp.l2, lp.l3 with
      | some _, some _ => some (midPt sl.dua_d, midPt sl.dua_m)
      | _, _ => none
    left34 := match lp.l3, lp.l4 with
      | some a, some b => some (a, b)
      | _, _ => none
    mid34 := match lp.l3, lp.l4 with
      | some _, some _ => some (midPt sl.dua_m, midPt sl.dua_u)
      | _, _ => none
    left45 := match lp.l4, lp.l5 with
      | some a, some b => some (a, b)
      | _, _ => none
    mid45 := match lp.l4, lp.l5 with
      | some _, some _ => some (midPt sl.dua_u, midPt sl.dua_ut)
      | _, _ => none
    right12 := match lp.r1, lp.r2 with
      | some a, some b => some (a, b)
      | _, _ => none
    right23 := match lp.r2, lp.r3 with
      | some a, some b => some (a, b)
      | _, _ => none
    right34 := match lp.r3, lp.r4 with
      | some a, some b => some (a, b)
      | _, _ => none
    right45 := match lp.r4, lp.r5 with
      | some a, some b => some (a, b)
      | _, _ => none }

/-- **C6.** Every left-boundary, middle and right-boundary segment is
gated independently: it is drawn exactly when both of its endpoint
landmarks are resolved, so the absence of one landmark suppresses only the
segments touching it. -/
theorem segment_gating_independent (sl : Slots) :
    (segsOf sl).left12.isSome = (qpresent sl.dca && qpresent sl.dua_d)
    ∧ (segsOf sl).mid12.isSome = (qpresent sl.dca && qpresent sl.dua_d)
    ∧ (segsOf sl).right12.isSome = (qpresent sl.dca && qpresent sl.dua_d)
    ∧ (segsOf sl).left23.isSome = (qpresent sl.dua_d && qpresent sl.dua_m)
    ∧ (segsOf sl).mid23.isSome = (qpresent sl.dua_d && qpresent sl.dua_m)
    ∧ (segsOf sl).right23.isSome = (qpresent sl.dua_d && qpresent sl.dua_m)
    ∧ (segsOf sl).left34.isSome = (qpresent sl.dua_m && qpresent sl.dua_u)
    ∧ (segsOf sl).mid34.isSome = (qpresent sl.dua_m && qpresent sl.dua_u)
    ∧ (segsOf sl).right34.isSome = (qpresent sl.dua_m && qpresent sl.dua_u)
    ∧ (segsOf sl).left45.isSome = (qpresent sl.dua_u && qpresent sl.dua_ut)
    ∧ (segsOf sl).mid45.isSome = (qpresent sl.dua_u && qpresent sl.dua_ut)
    ∧ (segsOf sl).right45.isSome = (qpresent sl.dua_u && qpresent sl.dua_ut) := by
  cases h1 : qpresent sl.dca <;> cases h2 : qpresent sl.dua_d <;>
    cases h3 : qpresent sl.dua_m <;> cases h4 : qpresent sl.dua_u <;>
    cases h5 : qpresent sl.dua_ut <;>
    simp [segsOf, lanePts, h1, h2, h3, h4, h5]

/-- `initSlots` with the slot for kind `k` replaced by `q` — one
`box_label` return supplying only kind `k`. -/
def setK (k : LKind) (q : Quad) : Slots :=
  match k with
  | .vla => { initSlots with vla := q }
  | .dca => { initSlots with dca := q }
  | .vpa => { initSlots with vpa := q }
  | .dua_d => { initSlots with dua_d := q }
  | .dua_m => { initSlots with dua_m := q }
  | .dua_u => { initSlots with dua_u := q }
  | .dua_ut => { initSlots with dua_ut := q }

theorem proj_setK (k : LKind) (q : Quad) : Slots.proj k (setK k q) = q := by
  cases k <;> rfl

/-- **C7.** Landmark absence is decided solely by the first coordinate: a
candidate whose first coordinate is 9999 is skipped by the resolver no
matter its other coordinates, a candidate whose first coordinate differs
from 9999 wins even if its other coordinates equal 9999, and the lane
key-point extraction applies the same first-coordinate test. -/
theorem absence_is_first_coordinate (q : Quad) (k : LKind) (cs : List Slots)
    (h0 : Option Quad) (sl : Slots) :
    (q.x1 = 9999 →
        Slots.proj k (resolve (setK k q :: cs) h0).1
          = Slots.proj k (resolve cs h0).1)
    ∧ (q.x1 ≠ 9999 → Slots.proj k (resolve (setK k q :: cs) h0).1 = q)
    ∧ ((lanePts sl).l1 = none ↔ sl.dca.x1 = 9999)
    ∧ ((lanePts sl).r1 = none ↔ sl.dca.x1 = 9999) := by
  refine ⟨?_, ?_, ?_, ?_⟩
  · intro h
    rw [resolve_cons, proj_stepRes, proj_setK]
    have : qpresent q = false := by simp [qpresent, h]
    simp [updQ, this]
  · intro h
    rw [resolve_cons, proj_stepRes, proj_setK]
    have : qpresent q = true := by simp [qpresent, h]
    simp [updQ, this]
  · by_cases h : qpresent sl.dca <;>
      simp_all [lanePts, qpresent]
  · by_cases h : qpresent sl.dca <;>
      simp_all [lanePts, qpresent]

/-- Witness for `absence_is_first_coordinate`: the quadruple
`(5, 9999, 9999, 9999)` has legitimate-looking first coordinate only, yet
is resolved as a present DCA landmark. -/
theorem absence_is_first_coordinate_witness :
    Slots.proj .dca (resolve [setK .dca ⟨5, 9999, 9999, 9999⟩] none).1
      = ⟨5, 9999, 9999, 9999⟩ :=
  (absence_is_first_coordinate ⟨5, 9999, 9999, 9999⟩ .dca [] none
    initSlots).2.1 (by decide)

/-- The center reference line (results.py:456-465): drawn only inside the
`if im is not None:` block, at `x = int(w/2.0)` from `y = int(h*0.80)` to
`y = int(h*0.99)` of the drawable buffer. -/
def centerLine (pin : PlotIn) : Option ((Int × Int) × (Int × Int)) :=
  if imSome pin then
    some ((pin.imW.tdiv 2, (4 * pin.imH).tdiv 5),
          (pin.imW.tdiv 2, (99 * pin.imH).tdiv 100))
  else none

/-- **C5 counterexample.** With no detections at all (and box drawing
enabled), `im` stays `None` and the center reference line is NOT drawn,
contradicting the claim that it is drawn on every call independent of
detections. -/
theorem center_line_not_drawn_without_detections :
    centerLine ⟨[], true, 480, 640⟩ = none := rfl

/-- **C5 amended.** The center reference line is drawn exactly when the
drawable buffer exists, i.e. when at least one detection was processed
with box drawing enabled; it then runs at `x = ⌊w/2⌋` from `⌊0.80*h⌋` to
`⌊0.99*h⌋`. -/
theorem center_line_when_im_exists (pin : PlotIn) (him : imSome pin = true) :
    centerLine pin
      = some ((pin.imW.tdiv 2, (4 * pin.imH).tdiv 5),
              (pin.imW.tdiv 2, (99 * pin.imH).tdiv 100)) := by
  simp [centerLine, him]

/-- Witness for `center_line_when_im_exists` on a 640×480 buffer with one
detection: the segment runs from (320, 384) to (320, 475). -/
theorem center_line_witness :
    centerLine ⟨[initSlots], true, 480, 640⟩
      = some ((320, 384), (320, 475)) := by
  rw [center_line_when_im_exists ⟨[initSlots], true, 480, 640⟩ (by decide)]
  decide

/-- The LDWS departure decision (results.py:469-477), executed inside the
`if im is not None:` block when both corners of `p1` are present:
`LD_TH = int(abs(r_p1[0] - l_p1[0]) / 3.5)` (equal to
`(2*|rx-lx|) tdiv 7` on exact values), `driver_x = int((l+r)/2.0)`,
`departure_distance = abs(driver_x - int(w/2.0))`; a caption is placed at
`(int(w/8.0), int(h/4.0))` when the distance exceeds the threshold. -/
def ldwsCaption (pin : PlotIn) (sl : Slots) : Option (Int × Int) :=
  if imSome pin then
    match (lanePts sl).l1, (lanePts sl).r1 with
    | some lp, some rp =>
        let th := (2 * |rp.1 - lp.1|).tdiv 7
        let dep := |(lp.1 + rp.1).tdiv 2 - pin.imW.tdiv 2|
        if th < dep then some (pin.imW.tdiv 8, pin.imH.tdiv 4) else none
    | _, _ => none
  else none

/-- The departure condition exactly as the claim words it, in exact
rational arithmetic with no truncation:
`|((left.x + right.x)/2) - frame-width/2| > |right.x - left.x| / 3.5`. -/
def ldwsSpecWarn (lx rx w : Int) : Prop :=
  |((lx : ℚ) + rx) / 2 - (w : ℚ) / 2| > |(rx : ℚ) - lx| / (7 / 2)

instance (lx rx w : Int) : Decidable (ldwsSpecWarn lx rx w) := by
  unfold ldwsSpecWarn
  infer_instance

/-- A frame whose only detection supplies a DCA landmark with corners
(320, 400) and (321, 400) on a 640×480 buffer. -/
def pinNarrow : PlotIn := ⟨[setK .dca ⟨320, 400, 321, 400⟩], true, 480, 640⟩

/-- **C3 counterexample.** With left corner (320,400), right corner
(321,400) and frame width 640, the claim's exact-arithmetic condition
holds (0.5 > 2/7), yet the code's truncated-integer computation
(`driver_x = int(320.5) = 320`, distance 0, threshold `int(1/3.5) = 0`)
renders no warning caption, so the claimed if-and-only-if fails. -/
theorem ldws_exact_condition_counterexample :
    ldwsSpecWarn 320 321 640
      ∧ ldwsCaption pinNarrow (plotResolve pinNarrow none).1 = none := by
  constructor
  · unfold ldwsSpecWarn
    push_cast
    rw [show ((320 : ℚ) + 321) / 2 - 640 / 2 = 1 / 2 by norm_num]
    rw [show ((321 : ℚ) - 320) = 1 by norm_num]
    rw [abs_of_pos (by norm_num : (0 : ℚ) < 1 / 2), abs_one]
    norm_num
  · decide

/-- **C3 amended.** When both corners of `p1` are present (and the
drawable buffer exists), the warning caption is rendered at
`(⌊w/8⌋, ⌊h/4⌋)` if and only if
`|⌊(left.x + right.x)/2⌋ - ⌊w/2⌋| > ⌊|right.x - left.x| / 3.5⌋`, the
integer-truncated arithmetic the code computes; when either corner of
`p1` is absent, no caption is rendered. -/
theorem ldws_decision (pin : PlotIn) (sl : Slots) (lp rp : Int × Int)
    (him : imSome pin = true) :
    ((lanePts sl).l1 = some lp → (lanePts sl).r1 = some rp →
      ldwsCaption pin sl
        = if (2 * |rp.1 - lp.1|).tdiv 7
              < |(lp.1 + rp.1).tdiv 2 - pin.imW.tdiv 2|
          then some (pin.imW.tdiv 8, pin.imH.tdiv 4)
          else none)
    ∧ ((lanePts sl).l1 = none → ldwsCaption pin sl = none)
    ∧ ((lanePts sl).r1 = none → ldwsCaption pin sl = none) := by
  refine ⟨?_, ?_, ?_⟩
  · intro hl hr
    simp [ldwsCaption, him, hl, hr]
  · intro hl
    simp [ldwsCaption, him, hl]
  · intro hr
    cases hl : (lanePts sl).l1 <;> simp [ldwsCaption, him, hl, hr]

/-- Witness for `ldws_decision`, matching the claim's concrete cases on a
640-wide frame: corners (200,400)/(440,400) give no caption, corners
(100,400)/(340,400) give a caption at (80, 120). -/
theorem ldws_decision_witness :
    ldwsCaption ⟨[setK .dca ⟨200, 400, 440, 400⟩], true, 480, 640⟩
        ((plotResolve ⟨[setK .dca ⟨200, 400, 440, 400⟩], true, 480, 640⟩ none).1)
      = none
    ∧ ldwsCaption ⟨[setK .dca ⟨100, 400, 340, 400⟩], true, 480, 640⟩
        ((plotResolve ⟨[setK .dca ⟨100, 400, 340, 400⟩], true, 480, 640⟩ none).1)
      = some (80, 120) := by
  constructor
  · have h := (ldws_decision ⟨[setK .dca ⟨200, 400, 440, 400⟩], true, 480, 640⟩
      ((plotResolve ⟨[setK .dca ⟨200, 400, 440, 400⟩], true, 480, 640⟩ none).1)
      (200, 400) (440, 400) (by decide)).1 (by decide) (by decide)
    rw [h]
    decide
  · have h := (ldws_decision ⟨[setK .dca ⟨100, 400, 340, 400⟩], true, 480, 640⟩
      ((plotResolve ⟨[setK .dca ⟨100, 400, 340, 400⟩], true, 480, 640⟩ none).1)
      (100, 400) (340, 400) (by decide)).1 (by decide) (by decide)
    rw [h]
    decide

/-- Witness for `vla_history_update`: frame 1 resolves VLA (1,2,3,4),
frame 2 supplies none, frame 3 resolves VLA (5,6,7,8); frame 2's single
FCW invocation uses row 2 and frame 3's uses row 6. -/
theorem vla_history_update_witness :
    fcwRows ⟨[initSlots], true, 480, 640⟩
        (plotResolve ⟨[initSlots], true, 480, 640⟩
          (plotResolve ⟨[setK .vla ⟨1, 2, 3, 4⟩], true, 480, 640⟩ none).2).2
      = [2]
    ∧ fcwRows ⟨[setK .vla ⟨5, 6, 7, 8⟩], true, 480, 640⟩
        (plotResolve ⟨[setK .vla ⟨5, 6, 7, 8⟩], true, 480, 640⟩
          (plotResolve ⟨[initSlots], true, 480, 640⟩
            (plotResolve ⟨[setK .vla ⟨1, 2, 3, 4⟩], true, 480, 640⟩ none).2).2).2
      = [6] := by
  have h := (vla_history_update [] none
      ⟨[setK .vla ⟨1, 2, 3, 4⟩], true, 480, 640⟩
      ⟨[initSlots], true, 480, 640⟩
      ⟨[setK .vla ⟨5, 6, 7, 8⟩], true, 480, 640⟩ none).2.2
    rfl rfl rfl (by decide) (by decide) (by decide) (by decide) (by decide)
  constructor
  · rw [h.1]; decide
  · rw [h.2.2.1]; decide

/-- Witness for `fcw_skip_without_history`: one detection, history absent
gives no FCW invocation; history `(1,2,3,4)` gives one invocation with
reference row 2. -/
theorem fcw_skip_without_history_witness :
    fcwRows ⟨[initSlots], true, 480, 640⟩ none = []
    ∧ (fcwRows ⟨[initSlots], true, 480, 640⟩ (some ⟨1, 2, 3, 4⟩)).length = 1
    ∧ ∀ y ∈ fcwRows ⟨[initSlots], true, 480, 640⟩ (some ⟨1, 2, 3, 4⟩),
        y = 2 := by
  have h0 := (fcw_skip_without_history ⟨[initSlots], true, 480, 640⟩ none
    ⟨1, 2, 3, 4⟩).1 rfl
  have h1 := (fcw_skip_without_history ⟨[initSlots], true, 480, 640⟩
    (some ⟨1, 2, 3, 4⟩) ⟨1, 2, 3, 4⟩).2 rfl rfl
  exact ⟨h0, h1.1.trans (by decide), fun y hy => (h1.2 y hy).trans rfl⟩

/-- A numpy-style buffer handed to `Boxes.__init__`: either a 1-D row or
a 2-D matrix whose trailing dimension is `w` (results.py:637-641). -/
inductive NpBuf
  | vec (row : List ℚ)
  | mat (w : Nat) (rows : List (List ℚ))
deriving Repr

/-- `if boxes.ndim == 1: boxes = boxes[None, :]` (results.py:639-640). -/
def NpBuf.promote : NpBuf → NpBuf
  | .vec r => .mat r.length [r]
  | .mat w rows => .mat w rows

/-- `boxes.shape[-1]` (results.py:641). -/
def NpBuf.lastDim : NpBuf → Nat
  | .vec r => r.length
  | .mat w _ => w

def NpBuf.rowsOf : NpBuf → List (List ℚ)
  | .vec r => [r]
  | .mat _ rows => rows

/-- The constructed `Boxes` record: row data, trailing width,
`is_track = (n == 7)` and the frame shape (results.py:637-645). -/
structure BoxesData where
  rows : List (List ℚ)
  width : Nat
  is_track : Bool
  orig_shape : Nat × Nat
deriving DecidableEq, Repr

/-- `Boxes.__init__` (results.py:637-645): promote a 1-D row, then
`assert n in (6, 7)`; a failed assertion aborts construction with an
error. -/
def BoxesInit (boxes : NpBuf) (orig_shape : Nat × Nat) :
    Except String BoxesData :=
  if boxes.promote.lastDim = 6 ∨ boxes.promote.lastDim = 7 then
    .ok ⟨boxes.promote.rowsOf, boxes.promote.lastDim,
         boxes.promote.lastDim == 7, orig_shape⟩
  else
    .error "expected n in 6 or 7"

/-- `Boxes.id` (results.py:662-665): `data[:, -3]` when `is_track`, else
`None`. -/
def BoxesData.idOpt (bd : BoxesData) : Option (List ℚ) :=
  if bd.is_track then
    some (bd.rows.map (fun r => r.getD (bd.width - 3) 0))
  else none

/-- **C8.** Construction with trailing width outside {6, 7} fails with an
error and yields no record; for width 6 or 7 it succeeds, a 1-D row is
promoted to a 1-row matrix, and the `id` field is non-absent exactly when
the width is 7. -/
theorem boxes_width_validation (b : NpBuf) (shape : Nat × Nat)
    (r : List ℚ) :
    (¬ (b.promote.lastDim = 6 ∨ b.promote.lastDim = 7) →
        BoxesInit b shape = .error "expected n in 6 or 7")
    ∧ ((b.promote.lastDim = 6 ∨ b.promote.lastDim = 7) →
        BoxesInit b shape
          = .ok ⟨b.promote.rowsOf, b.promote.lastDim,
                 b.promote.lastDim == 7, shape⟩)
    ∧ (∀ bd, BoxesInit b shape = .ok bd →
        (bd.idOpt ≠ none ↔ bd.width = 7))
    ∧ ((r.length = 6 ∨ r.length = 7) →
        BoxesInit (.vec r) shape
          = .ok ⟨[r], r.length, r.length == 7, shape⟩) := by
  refine ⟨?_, ?_, ?_, ?_⟩
  · intro h
    simp [BoxesInit, h]
  · intro h
    simp [BoxesInit, h]
  · intro bd hbd
    unfold BoxesInit at hbd
    by_cases h : b.promote.lastDim = 6 ∨ b.promote.lastDim = 7
    · rw [if_pos h] at hbd
      injection hbd with hbd
      subst hbd
      by_cases h7 : b.promote.lastDim = 7
      · simp [BoxesData.idOpt, h7]
      · simp [BoxesData.idOpt, h7]
    · rw [if_neg h] at hbd
      exact absurd hbd (by simp)
  · intro h
    have hvec : (NpBuf.vec r).promote.lastDim = r.length := rfl
    unfold BoxesInit
    rw [hvec, if_pos h]
    rfl

/-- Witness for `boxes_width_validation`: a six-element row is accepted,
promoted to a 1-row matrix, and carries no track-id column. -/
theorem boxes_width_validation_witness :
    BoxesInit (.vec [1, 2, 3, 4, 5, 6]) (480, 640)
      = .ok ⟨[[1, 2, 3, 4, 5, 6]], 6, false, (480, 640)⟩
    ∧ BoxesData.idOpt ⟨[[1, 2, 3, 4, 5, 6]], 6, false, (480, 640)⟩ = none := by
  have h := (boxes_width_validation (.vec [1, 2, 3, 4, 5, 6]) (480, 640)
    [1, 2, 3, 4, 5, 6]).2.2.2 (by decide)
  exact ⟨h.trans rfl, rfl⟩

/-- Descending-probability comparison on class indices: `probGe p i j`
says class `i`'s probability is at least class `j`'s. -/
def probGe (p : List ℚ) (i j : Nat) : Prop := p.getD j 0 ≤ p.getD i 0

instance probGeDecidable (p : List ℚ) : DecidableRel (probGe p) :=
  fun _ _ => inferInstanceAs (Decidable (_ ≤ _))

instance probGeTotal (p : List ℚ) : IsTotal Nat (probGe p) :=
  ⟨fun _ _ => le_total _ _⟩

instance probGeTrans (p : List ℚ) : IsTrans Nat (probGe p) :=
  ⟨fun _ _ _ h1 h2 => le_trans h2 h1⟩

/-- `Probs.top5 = (-data).argsort(0)[:5]` (results.py:806-810): argsort of
the negated vector is modelled as a stable sort of the class indices by
descending probability, of which the first five are taken. -/
def top5 (p : List ℚ) : List Nat :=
  (List.insertionSort (probGe p) (List.range p.length)).take 5

/-- **C9 counterexample.** On the probability vector `[1, 1]` (a tie),
`top5` returns `[0, 1]`, whose probabilities are not strictly descending,
so the claimed strict descending order fails. -/
theorem top5_not_strictly_descending :
    top5 [(1 : ℚ), 1] = [0, 1]
    ∧ ¬ List.Chain'
        (fun i j => ([(1 : ℚ), 1]).getD j 0 < ([(1 : ℚ), 1]).getD i 0)
        (top5 [(1 : ℚ), 1]) := by
  have h01 : top5 [(1 : ℚ), 1] = [0, 1] := by decide
  refine ⟨h01, ?_⟩
  rw [h01, List.chain'_cons]
  simp

/-- **C9 amended.** `top5` lists class indices in descending
(non-increasing) probability order, with ties permitted, and its length is
`min 5 (number of classes)`. -/
theorem top5_descending_and_length (p : List ℚ) :
    (top5 p).length = min 5 p.length
    ∧ (top5 p).Pairwise (fun i j => p.getD j 0 ≤ p.getD i 0) := by
  constructor
  · simp [top5, List.length_take, List.length_insertionSort,
      List.length_range]
  · have hs : (List.insertionSort (probGe p) (List.range p.length)).Pairwise
        (probGe p) :=
      List.sorted_insertionSort (probGe p) (List.range p.length)
    exact List.Pairwise.sublist (List.take_sublist 5 _) hs

/-- A detection row in pixel `xyxy` coordinates. -/
structure BoxRow where
  x1 : ℚ
  y1 : ℚ
  x2 : ℚ
  y2 : ℚ
deriving DecidableEq, Repr

/-- Modelled from the spec: `ops.xyxy2xywh` lives in the external
`ultralytics.utils.ops` module, not in this repository's source; the spec
describes `xywh` as the center/size view of the pixel rectangle. -/
def xyxy2xywh (b : BoxRow) : BoxRow :=
  ⟨(b.x1 + b.x2) / 2, (b.y1 + b.y2) / 2, b.x2 - b.x1, b.y2 - b.y1⟩

/-- `Boxes.xyxyn` (results.py:673-680): x coordinates divided by
`orig_shape[1] = w`, y coordinates by `orig_shape[0] = h`. -/
def xyxynRow (b : BoxRow) (h w : ℚ) : BoxRow :=
  ⟨b.x1 / w, b.y1 / h, b.x2 / w, b.y2 / h⟩

/-- `Boxes.xywhn` (results.py:682-689): the `xywh` view divided by the
frame dimensions the same way. -/
def xywhnRow (b : BoxRow) (h w : ℚ) : BoxRow :=
  let c := xyxy2xywh b
  ⟨c.x1 / w, c.y1 / h, c.x2 / w, c.y2 / h⟩

/-- Scale a normalized row back by the frame dimensions (x by w, y by h). -/
def scaleRow (b : BoxRow) (h w : ℚ) : BoxRow :=
  ⟨b.x1 * w, b.y1 * h, b.x2 * w, b.y2 * h⟩

/-- **C10.** For positive frame dimensions the normalized views
round-trip exactly: scaling `xyxyn` back by `(w, h)` reproduces the pixel
`xyxy` row, and scaling `xywhn` back reproduces `xywh`. -/
theorem normalized_views_roundtrip (b : BoxRow) (h w : ℚ)
    (hh : 0 < h) (hw : 0 < w) :
    scaleRow (xyxynRow b h w) h w = b
    ∧ scaleRow (xywhnRow b h w) h w = xyxy2xywh b := by
  have hh0 : h ≠ 0 := ne_of_gt hh
  have hw0 : w ≠ 0 := ne_of_gt hw
  constructor <;>
    simp [scaleRow, xyxynRow, xywhnRow, xyxy2xywh,
      div_mul_cancel₀, hh0, hw0]

/-- Witness for `normalized_views_roundtrip` on the row (1,2,3,4) with
frame height 2 and width 4. -/
theorem normalized_views_roundtrip_witness :
    scaleRow (xyxynRow ⟨1, 2, 3, 4⟩ 2 4) 2 4 = ⟨1, 2, 3, 4⟩
    ∧ scaleRow (xywhnRow ⟨1, 2, 3, 4⟩ 2 4) 2 4 = xyxy2xywh ⟨1, 2, 3, 4⟩ :=
  normalized_views_roundtrip ⟨1, 2, 3, 4⟩ 2 4 (by norm_num) (by norm_num)

end ADAS
